import Mathlib

/-!
Shallow embedding of the NuGateway Modbus reader (`src/modbus_reader.py`),
covering the CRC engine, the standard register reader, the BMS protocol
codec with its heuristic pack-field locator, the MPPT/ENV/LDR/PIR decoders
and the poll orchestrator `read_all_devices`.

Modelling conventions:
* Python byte strings are `List Nat` (each element a byte value).
* Python floats are modelled as exact rationals (`Rat`); Python's `round`
  (round half to even on the exact value) is `pyRound`.
* A Python `IndexError` that propagates to an enclosing handler is
  modelled by `Option` (`none` = the exception escaped).
* The serial transport is an oracle `Req → List Nat` giving the bytes
  that arrive in response to each request; an empty list models a silent
  device.
-/

set_option maxRecDepth 100000

namespace NuGateway

/-- Python `round(q)` to an integer: round half to even on the exact value. -/
def pyRound (q : Rat) : Int :=
  let f := ⌊q⌋
  if q - (f : Rat) < (1 : Rat) / 2 then f
  else if (1 : Rat) / 2 < q - (f : Rat) then f + 1
  else if f % 2 = 0 then f else f + 1

/-- Integer evaluation of `pyRound` on the fraction `n / d` (for `0 < d`):
    used to compute the rounding without rational arithmetic. -/
def pyRoundDiv (n d : Int) : Int :=
  let f := n / d
  let r := n % d
  if 2 * r < d then f
  else if d < 2 * r then f + 1
  else if f % 2 = 0 then f else f + 1

/-- Python `round(q, 1)`. -/
def round1 (q : Rat) : Rat := (pyRound (q * 10) : Rat) / 10

/-- Python `round(q, 2)`. -/
def round2 (q : Rat) : Rat := (pyRound (q * 100) : Rat) / 100

/-- Python `round(q, 3)`. -/
def round3 (q : Rat) : Rat := (pyRound (q * 1000) : Rat) / 1000

/-- One shift step of the Modbus CRC-16 loop: shift right, XOR `0xA001`
    when the shifted-out bit is 1 (`modbus_reader.calculate_crc`, inner loop). -/
def crcShift (c : Nat) : Nat :=
  if c &&& 1 = 1 then (c >>> 1) ^^^ 0xA001 else c >>> 1

/-- Fold one byte into the CRC: XOR it in, then eight shift steps. -/
def crcByte (c b : Nat) : Nat :=
  crcShift (crcShift (crcShift (crcShift (crcShift (crcShift (crcShift (crcShift (c ^^^ b))))))))

/-- `ModbusReader.calculate_crc`: Modbus CRC-16, initial value `0xFFFF`,
    result returned as `[low byte, high byte]`. -/
def calculate_crc (data : List Nat) : List Nat :=
  let crc := data.foldl crcByte 0xFFFF
  [crc &&& 0xFF, (crc >>> 8) &&& 0xFF]

/-- `ModbusReader.verify_crc`: reject frames shorter than 3 bytes, otherwise
    compare the trailing two bytes against the CRC of the rest. -/
def verify_crc (data : List Nat) : Bool :=
  if data.length < 3 then false
  else data.drop (data.length - 2) == calculate_crc (data.take (data.length - 2))

/-- Pairing loop of `read_registers`: consecutive bytes are combined
    big-endian into 16-bit registers; a trailing odd byte is dropped. -/
def pairBE : List Nat → List Nat
  | [] => []
  | [_] => []
  | a :: b :: rest => ((a <<< 8) ||| b) :: pairBE rest

/-- Outcome of decoding one received Modbus RTU response. -/
inductive RegResult where
  | noResponse
  | deviceException (code : Nat)
  | frameCorrupt
  | frameTooShort
  | ok (regs : List Nat)
  deriving DecidableEq

/-- Decoding policy of `ModbusReader.read_registers` applied to the bytes
    received: empty, exception bit, CRC, minimum length, then extraction of
    `byteCount` bytes from offset 3 paired big-endian. -/
def readRegistersDecode (response : List Nat) : RegResult :=
  if response = [] then .noResponse
  else if 2 ≤ response.length ∧ response.getD 1 0 &&& 0x80 ≠ 0 then
    .deviceException (if 2 < response.length then response.getD 2 0 else 0)
  else if verify_crc response = false then .frameCorrupt
  else if response.length < 5 then .frameTooShort
  else .ok (pairBE ((response.drop 3).take (response.getD 2 0)))

/-- A request on the shared serial bus: a standard Modbus register read or a
    vendor BMS command exchange. -/
inductive Req where
  | modbus (slave addr count fc : Nat)
  | bms (cmd : Nat)
  deriving DecidableEq

/-- The byte transport: for each request, the bytes that arrive in response. -/
abbrev Oracle := Req → List Nat

/-- `ModbusReader.read_registers` seen from its callers: every failure
    collapses to `none`, success gives the register list. -/
def read_registers (o : Oracle) (slave addr count fc : Nat) : Option (List Nat) :=
  match readRegistersDecode (o (.modbus slave addr count fc)) with
  | .ok regs => some regs
  | _ => none

/-- `u16_le` helper of `read_bms_data`: `buf[i] | (buf[i+1] << 8)`;
    `none` models the `IndexError` when an index is out of range. -/
def u16_le (buf : List Nat) (i : Nat) : Option Nat :=
  match buf[i]?, buf[i + 1]? with
  | some lo, some hi => some (lo ||| (hi <<< 8))
  | _, _ => none

/-- Total form of `u16_le`, used where the surrounding loop bounds keep the
    indices in range. -/
def u16v (buf : List Nat) (i : Nat) : Nat := (u16_le buf i).getD 0

/-- `i16_le` helper of `read_bms_data`: signed 16-bit little-endian. -/
def i16v (buf : List Nat) (i : Nat) : Int :=
  let v := u16v buf i
  if 32767 < v then (v : Int) - 65536 else (v : Int)

/-- Checksum test of `bms_send`: sum of all but the last byte, masked to one
    byte, must equal the last byte. -/
def bmsChecksumOk (rx : List Nat) : Bool :=
  (rx.dropLast.sum &&& 0xFF) == rx.getLastD 0

/-- `bms_send` of `read_bms_data`, receive side: the accumulated response is
    kept when it is nonempty and its additive checksum verifies. -/
def bms_send (o : Oracle) (cmd : Nat) : Option (List Nat) :=
  let rx := o (.bms cmd)
  if rx = [] then none
  else if bmsChecksumOk rx then some rx else none

/-- One decoded cell voltage: `round(u16 / 1000.0, 3)` volts. -/
def cellVal (v : Nat) : Rat := round3 ((v : Rat) / 1000)

/-- The raw 16-bit cell values `u16_le(d, 2*i)` for the listed indices;
    `none` as soon as one read is out of range (the comprehension raises). -/
def cellsRawGo (d : List Nat) : List Nat → Option (List Nat)
  | [] => some []
  | i :: rest =>
    match u16_le d (2 * i) with
    | none => none
    | some v =>
      match cellsRawGo d rest with
      | none => none
      | some vs => some (v :: vs)

/-- Raw cell values for cells `0 .. seriesCount-1`. -/
def cellsRaw (d : List Nat) (sc : Nat) : Option (List Nat) :=
  cellsRawGo d (List.range sc)

/-- Zero-run scan of `read_bms_data`: walking the bytes from index `i` with
    `run` zeros seen so far, return the index of the first nonzero byte that
    ends a run of at least 16 zeros, `none` when the loop ends without one. -/
def zrGo : List Nat → Nat → Nat → Option Nat
  | [], _, _ => none
  | b :: rest, i, run =>
    if b = 0 then zrGo rest (i + 1) (run + 1)
    else if 16 ≤ run then some i
    else zrGo rest (i + 1) 0

/-- `base_start` after the zero-padding skip: the break index of the zero-run
    scan when it fires, the unchanged `start` otherwise. -/
def baseStart (d : List Nat) (start : Nat) : Nat :=
  (zrGo (d.drop start) start 0).getD start

/-- Initial scan start of the locator: `max(2*seriesCount, 8)`. -/
def scanStart (sc : Nat) : Nat := max (2 * sc) 8

/-- Scan start of the locator after the zero-run skip. -/
def bmsBaseStart (d : List Nat) (sc : Nat) : Nat :=
  baseStart d (scanStart sc)

/-- Tolerance test of the locator: `v_low <= u16_le(d, i) <= v_high`. -/
def inWindow (d : List Nat) (lo hi : Int) (i : Nat) : Bool :=
  decide (lo ≤ (u16v d i : Int) ∧ (u16v d i : Int) ≤ hi)

/-- Pack-marker scan: the first offset `i` in `[b, len(d) - 8)` whose
    little-endian 16-bit value falls inside the window. -/
def findPackIdx (d : List Nat) (b : Nat) (lo hi : Int) : Option Nat :=
  (List.range' b (d.length - 8 - b)).find? (inWindow d lo hi)

/-- `v_guess = int(round(total_v * 100))` from the decoded cell voltages. -/
def vGuess (cells : List Rat) : Int := pyRound (cells.sum * 100)

/-- The command-0x00 data block: `rx[6:-1][1:]`. -/
def bmsPayload (rx : List Nat) : List Nat :=
  ((rx.drop 6).dropLast).drop 1

/-- SOC/SOH candidate byte: `d[i]` when `i` is in range, else 255. -/
def candByte (d : List Nat) (i : Nat) : Nat :=
  if i < d.length then d.getD i 0 else 255

/-- Clamp of the SOC/SOH candidate: kept when `0 <= v <= 100`, else 0. -/
def socClamp (v : Nat) : Nat := if v ≤ 100 then v else 0

/-- A value of the aggregate reading map: a Python float (exact rational),
    int, string or bool; `nonfinite` stands for an IEEE-754 infinity or NaN. -/
inductive Val where
  | num (q : Rat)
  | nat (n : Nat)
  | str (s : String)
  | bool (b : Bool)
  | nonfinite
  deriving DecidableEq

/-- The four fixed cell-voltage keys (`cells[i] if len(cells) > i else 0.0`). -/
def bmsCellKVs (cells : List Rat) : List (String × Val) :=
  [("bms_cell_1_voltage", Val.num (cells.getD 0 0)),
   ("bms_cell_2_voltage", Val.num (cells.getD 1 0)),
   ("bms_cell_3_voltage", Val.num (cells.getD 2 0)),
   ("bms_cell_4_voltage", Val.num (cells.getD 3 0))]

/-- Pack fields on a locator miss: cell-sum voltage, zero current, zero
    SOC/SOH, derived power. -/
def bmsKVsMiss (cells : List Rat) : List (String × Val) :=
  bmsCellKVs cells ++
    [("bms_battery_voltage", Val.num (round2 cells.sum)),
     ("bms_battery_current", Val.num 0),
     ("bms_battery_soc", Val.nat 0),
     ("bms_battery_soh", Val.nat 0),
     ("bms_battery_power", Val.num (round2 (round2 cells.sum * 0)))]

/-- Pack fields when the locator found index `i` in payload `d`. -/
def bmsKVsFound (cells : List Rat) (d : List Nat) (i : Nat) : List (String × Val) :=
  bmsCellKVs cells ++
    [("bms_battery_voltage", Val.num (round2 ((u16v d i : Rat) / 100))),
     ("bms_battery_current", Val.num (round2 ((i16v d (i + 2) : Rat) / 100))),
     ("bms_battery_soc", Val.nat (socClamp (candByte d (i + 6)))),
     ("bms_battery_soh", Val.nat (socClamp (candByte d (i + 7)))),
     ("bms_battery_power",
      Val.num (round2 (round2 ((u16v d i : Rat) / 100) * round2 ((i16v d (i + 2) : Rat) / 100))))]

/-- Decoding of one command-0x00 response past the `len(rx) > 20` guard:
    cell voltages, locator, pack fields. `none` models the `IndexError`
    escaping from the cell comprehension. -/
def decode0x00 (rx : List Nat) (sc : Nat) : Option (List (String × Val)) :=
  match cellsRaw (bmsPayload rx) sc with
  | none => none
  | some raw =>
    let d := bmsPayload rx
    let cells := raw.map cellVal
    let vg := vGuess cells
    match findPackIdx d (bmsBaseStart d sc) (vg - 12) (vg + 12) with
    | none => some (bmsKVsMiss cells)
    | some i => some (bmsKVsFound cells d i)

/-- The locator result for a command-0x00 payload `d` and cell count `sc`:
    `none` when the cell decode raises, otherwise the found offset if any. -/
def bmsPackIdx (d : List Nat) (sc : Nat) : Option (Option Nat) :=
  (cellsRaw d sc).map fun raw =>
    findPackIdx d (bmsBaseStart d sc)
      (vGuess (raw.map cellVal) - 12) (vGuess (raw.map cellVal) + 12)

/-- Series count derived from the command-0x27 exchange: `d[-1]` of the data
    slice when in `[1, 24]`, default 4; `none` models the `IndexError` on an
    empty data slice (`len(rx) == 7`). -/
def seriesFrom27 (rx? : Option (List Nat)) : Option Nat :=
  match rx? with
  | none => some 4
  | some rx =>
    if 6 < rx.length then
      match ((rx.drop 6).dropLast).getLast? with
      | none => none
      | some last => some (if 1 ≤ last ∧ last ≤ 24 then last else 4)
    else some 4

/-- MOS status from a 0x2D/0x2E exchange: byte 7 when at least 8 bytes
    arrived, `UNKNOWN` otherwise. -/
def mosVal (rx? : Option (List Nat)) : Val :=
  match rx? with
  | some rx =>
    if 8 ≤ rx.length then (if rx.getD 7 0 = 1 then .str "ON" else .str "OFF")
    else .str "UNKNOWN"
  | none => .str "UNKNOWN"

/-- The command-0x00 stage of `read_bms_data`: nothing is added when the
    exchange failed or the response has at most 20 bytes. -/
def bms0x00Block (rx? : Option (List Nat)) (sc : Nat) : Option (List (String × Val)) :=
  match rx? with
  | some rx => if 20 < rx.length then decode0x00 rx sc else some []
  | none => some []

/-- `ModbusReader.read_bms_data` over the transport oracle: the decoded
    dictionary (`none` when an exception aborts the whole read) paired with
    the list of BMS commands actually sent, in order. -/
def read_bms_data (o : Oracle) : Option (List (String × Val)) × List Req :=
  match seriesFrom27 (bms_send o 0x27) with
  | none => (none, [Req.bms 0x27])
  | some sc =>
    match bms0x00Block (bms_send o 0x00) sc with
    | none => (none, [Req.bms 0x27, Req.bms 0x00])
    | some kvs =>
      (some (kvs ++
        [("bms_discharge_mos_status", mosVal (bms_send o 0x2D)),
         ("bms_charge_mos_status", mosVal (bms_send o 0x2E))]),
       [Req.bms 0x27, Req.bms 0x00, Req.bms 0x2D, Req.bms 0x2E])

/-- Python truthiness guard `if reg:` followed by `reg[0]`: the head register
    of a successful, nonempty register read. -/
def regHead : Option (List Nat) → Option Nat
  | some (x :: _) => some x
  | _ => none

/-- Field assembly of `read_mppt_data` from the five register reads: each
    value divided by 100 except SOC (raw); battery current signed 16-bit;
    derived powers from the stored voltage and current. -/
def mpptKVs (pvV pvI soc batV batI : Option (List Nat)) : List (String × Val) :=
  (match regHead pvV with
   | some r => [("mppt_pv_voltage", Val.num (round2 ((r : Rat) / 100)))]
   | none => []) ++
  (match regHead pvI with
   | some r => [("mppt_pv_current", Val.num (round2 ((r : Rat) / 100)))]
   | none => []) ++
  (match regHead soc with
   | some r => [("mppt_battery_soc", Val.nat r)]
   | none => []) ++
  (match regHead batV with
   | some r => [("mppt_battery_voltage", Val.num (round2 ((r : Rat) / 100)))]
   | none => []) ++
  (match regHead batI with
   | some r =>
     [("mppt_battery_current",
       Val.num (round2 (((if 32767 < r then (r : Int) - 65536 else (r : Int)) : Rat) / 100)))]
   | none => []) ++
  (match regHead pvV, regHead pvI with
   | some rv, some ri =>
     [("mppt_pv_power", Val.num (round2 (round2 ((rv : Rat) / 100) * round2 ((ri : Rat) / 100))))]
   | _, _ => []) ++
  (match regHead batV, regHead batI with
   | some rv, some ri =>
     [("mppt_battery_power",
       Val.num (round2 (round2 ((rv : Rat) / 100) *
         round2 (((if 32767 < ri then (ri : Int) - 65536 else (ri : Int)) : Rat) / 100))))]
   | _, _ => [])

/-- `ModbusReader.read_mppt_data`: the five reads at slave 0x01, then
    `data if data else None`. -/
def read_mppt_data (o : Oracle) : Option (List (String × Val)) :=
  let kvs := mpptKVs (read_registers o 0x01 0x304E 1 0x04) (read_registers o 0x01 0x304F 1 0x04)
    (read_registers o 0x01 0x3045 1 0x04) (read_registers o 0x01 0x3046 1 0x04)
    (read_registers o 0x01 0x3047 1 0x04)
  if kvs = [] then none else some kvs

/-- IEEE-754 binary32 value of two registers packed big-endian (`'>HH'` then
    `'>f'`): exact rational for finite patterns, `nonfinite` for exponent 255. -/
def f32Val (r0 r1 : Nat) : Val :=
  let w := (r0 <<< 16) ||| r1
  let sign : Rat := if w >>> 31 = 1 then -1 else 1
  let ex := (w >>> 23) &&& 0xFF
  let frac := w &&& 0x7FFFFF
  if ex = 255 then .nonfinite
  else if ex = 0 then .num (round1 (sign * (frac : Rat) * (2 : Rat) ^ (-(149 : Int))))
  else .num (round1 (sign * ((0x800000 + frac : Nat) : Rat) * (2 : Rat) ^ ((ex : Int) - 150)))

/-- One ENV field: needs a successful read of at least two registers; the
    `struct.pack` range guard is the byte-size bound on each register. -/
def envField (key : String) (regs? : Option (List Nat)) : List (String × Val) :=
  match regs? with
  | some (r0 :: r1 :: _) =>
    if r0 < 65536 ∧ r1 < 65536 then [(key, f32Val r0 r1)] else []
  | _ => []

/-- `ModbusReader.read_env_data`: CO2, temperature, humidity at slave 0x7B. -/
def read_env_data (o : Oracle) : Option (List (String × Val)) :=
  let kvs := envField "env_co2" (read_registers o 0x7B 0x0008 2 0x03) ++
    envField "env_temperature" (read_registers o 0x7B 0x000E 2 0x03) ++
    envField "env_humidity" (read_registers o 0x7B 0x0010 2 0x03)
  if kvs = [] then none else some kvs

/-- `ModbusReader.read_ldr_data`: two registers at slave 0x04 combined into a
    32-bit lux value. -/
def read_ldr_data (o : Oracle) : Option (List (String × Val)) :=
  match read_registers o 0x04 0x0000 2 0x03 with
  | some (r0 :: r1 :: _) => some [("ldr_lux", Val.nat ((r0 <<< 16) ||| r1))]
  | _ => none

/-- `ModbusReader.read_pir_data`: one register at slave 0x02, boolean motion. -/
def read_pir_data (o : Oracle) : Option (List (String × Val)) :=
  match read_registers o 0x02 0x0000 1 0x03 with
  | some (r0 :: _) => some [("pir_motion_detected", Val.bool (r0 ≠ 0))]
  | _ => none

/-- The five MPPT register requests, in the order they are issued. -/
def mpptReqs : List Req :=
  [.modbus 0x01 0x304E 1 0x04, .modbus 0x01 0x304F 1 0x04, .modbus 0x01 0x3045 1 0x04,
   .modbus 0x01 0x3046 1 0x04, .modbus 0x01 0x3047 1 0x04]

/-- The three ENV register requests. -/
def envReqs : List Req :=
  [.modbus 0x7B 0x0008 2 0x03, .modbus 0x7B 0x000E 2 0x03, .modbus 0x7B 0x0010 2 0x03]

/-- The LDR register request. -/
def ldrReqs : List Req := [.modbus 0x04 0x0000 2 0x03]

/-- The PIR register request. -/
def pirReqs : List Req := [.modbus 0x02 0x0000 1 0x03]

/-- Contribution of one device to the aggregate (`if data: results.update`). -/
def contrib : Option (List (String × Val)) → List (String × Val)
  | some kvs => kvs
  | none => []

/-- `ModbusReader.read_all_devices`: the aggregate reading of one poll cycle
    together with all requests issued, in order MPPT, ENV, LDR, BMS, PIR. -/
def read_all_devices (o : Oracle) : List (String × Val) × List Req :=
  let bms := read_bms_data o
  (contrib (read_mppt_data o) ++ contrib (read_env_data o) ++ contrib (read_ldr_data o) ++
     contrib bms.1 ++ contrib (read_pir_data o),
   mpptReqs ++ envReqs ++ ldrReqs ++ bms.2 ++ pirReqs)

/-- The physical device a request is addressed to. -/
inductive Dev where
  | mppt | env | ldr | bms | pir | other
  deriving DecidableEq

/-- Classification of requests by device (slave address, or BMS framing). -/
def reqDev : Req → Dev
  | .modbus 0x01 _ _ _ => .mppt
  | .modbus 0x7B _ _ _ => .env
  | .modbus 0x04 _ _ _ => .ldr
  | .modbus 0x02 _ _ _ => .pir
  | .modbus _ _ _ _ => .other
  | .bms _ => .bms

/-- The aggregate contribution of one device in a poll cycle. -/
def readingOf (dev : Dev) (o : Oracle) : List (String × Val) :=
  match dev with
  | .mppt => contrib (read_mppt_data o)
  | .env => contrib (read_env_data o)
  | .ldr => contrib (read_ldr_data o)
  | .bms => contrib (read_bms_data o).1
  | .pir => contrib (read_pir_data o)
  | .other => []

/-- Flip bit `k` (`0 ≤ k < 16`) of a two-byte CRC list. -/
def flipBit (c : List Nat) (k : Nat) : List Nat :=
  c.set (k / 8) (c.getD (k / 8) 0 ^^^ (1 <<< (k % 8)))

/-- Does `d` contain a run of 16 consecutive zero bytes starting at or after
    `start`? Decidable reformulation used to state the no-long-run case of
    the zero-run skip. -/
def hasRun16From (d : List Nat) (start : Nat) : Bool :=
  (List.range d.length).any fun j =>
    decide (start ≤ j) && (List.range 16).all fun m => d.getD (j + m) 1 == 0

/-- A complete command-0x00 BMS response frame around payload `d`: six header
    bytes, the skipped leading data byte, the payload, the checksum byte. -/
def rxOf (d : List Nat) : List Nat := [0, 0, 0, 0, 0, 0, 0] ++ d ++ [0]

/-- A CRC-valid response whose `byteCount` (8) over-claims the four bytes
    that follow offset 3 (two data bytes and the two CRC bytes). -/
def respOverclaim : List Nat := [1, 4, 8, 1, 2] ++ calculate_crc [1, 4, 8, 1, 2]

/-- A CRC-valid response carrying a single register `0x1234`. -/
def respShort : List Nat := [1, 4, 2, 0x12, 0x34] ++ calculate_crc [1, 4, 2, 0x12, 0x34]

/-- An oracle that answers a two-register request with `respShort`. -/
def oracleShortResp : Oracle := fun r =>
  match r with
  | .modbus 0x01 0x0000 2 0x04 => respShort
  | _ => []

/-- A CRC-valid response whose `byteCount` (6) over-claims the payload, so
    the two CRC bytes fall inside the decoded register data. -/
def respCrcLeak : List Nat := [1, 4, 6, 0xAB, 0xCD] ++ calculate_crc [1, 4, 6, 0xAB, 0xCD]

/-- Command-0x00 payload with 4 cells of 3.250 V (raw 3250 = 0xB2 0x0C,
    summing to exactly 13.00 V) and the value 1312 = 0x20 0x05 planted
    little-endian at offset 10. -/
def d1312 : List Nat :=
  [0xB2, 0x0C, 0xB2, 0x0C, 0xB2, 0x0C, 0xB2, 0x0C, 0, 0, 0x20, 0x05, 0, 0, 0, 0, 0, 0, 0, 0]

/-- Same payload with the planted value shifted to 1313 = 0x21 0x05. -/
def d1313 : List Nat :=
  [0xB2, 0x0C, 0xB2, 0x0C, 0xB2, 0x0C, 0xB2, 0x0C, 0, 0, 0x21, 0x05, 0, 0, 0, 0, 0, 0, 0, 0]

/-- Payload with a 20-byte zero run right after the 8-byte cell block,
    followed by a nonzero byte: the zero-run skip fires. -/
def dSkip20 : List Nat :=
  [1, 1, 1, 1, 1, 1, 1, 1] ++ List.replicate 20 0 ++ [7, 0, 0]

/-- Payload with only a 10-byte zero run after the cell block: below the
    16-byte threshold, the scan start must not move. -/
def dRun10 : List Nat :=
  [1, 1, 1, 1, 1, 1, 1, 1] ++ List.replicate 10 0 ++ [7, 0, 0]

/-- Payload whose 20-byte zero run begins at the scan start and extends to
    the very end of the payload. -/
def dRunEnd : List Nat := [1, 1, 1, 1, 1, 1, 1, 1] ++ List.replicate 20 0

/-- Payload with 4 cells of 3.250 V and the pack group planted at offset 8
    (1300 = 0x14 0x05, zero current), SOC byte 255 (out of range) at
    offset 14 and SOH byte 50 at offset 15. -/
def dSoc255 : List Nat :=
  [0xB2, 0x0C, 0xB2, 0x0C, 0xB2, 0x0C, 0xB2, 0x0C, 0x14, 0x05, 0, 0, 0, 0, 255, 50, 0]

/-- Payload like `dSoc255` but with in-range SOC byte 55 and SOH byte 66. -/
def dSoc55 : List Nat :=
  [0xB2, 0x0C, 0xB2, 0x0C, 0xB2, 0x0C, 0xB2, 0x0C, 0x14, 0x05, 0, 0, 0, 0, 55, 66, 0]

/-- Payload with 4 zero cells and bytes of value 1 after the cell block:
    every scanned 16-bit value is 257, outside the window around 0, so the
    locator misses. -/
def dMissAll : List Nat := [0, 0, 0, 0, 0, 0, 0, 0, 1, 1, 1, 1, 1, 1, 1, 1, 1]

/-- Oracle for the truncated-response scenario: the 0x27 exchange reports 24
    cells (checksum-valid), the 0x00 exchange returns a 22-byte frame whose
    14 payload bytes cannot hold 24 cell values. -/
def oracleTrunc : Oracle := fun r =>
  match r with
  | .bms 0x27 => [0, 0, 0, 0, 0, 0, 24, 24]
  | .bms 0x00 => List.replicate 22 0
  | _ => []

/-- Oracle whose 0x27 response is a checksum-valid 7-byte frame: its data
    slice is empty and `d[-1]` raises, aborting the whole BMS read. -/
def oracleBms27Short : Oracle := fun r =>
  match r with
  | .bms 0x27 => [0, 0, 0, 0, 0, 0, 0]
  | _ => []

theorem pyRound_intCast (n : Int) : pyRound ((n : Rat)) = n := by
  simp [pyRound, Int.floor_intCast]

theorem pyRound_intCast_div_natCast (n : Int) (d : Nat) (hd : 0 < d) :
    pyRound ((n : Rat) / (d : Rat)) = pyRoundDiv n (d : Int) := by
  have hdI : (0 : Int) < (d : Int) := by exact_mod_cast hd
  have hdR : (0 : Rat) < (d : Rat) := by exact_mod_cast hd
  have hfl : ⌊(n : Rat) / (d : Rat)⌋ = n / (d : Int) := Rat.floor_intCast_div_natCast n d
  have hsum : (d : Int) * (n / (d : Int)) + n % (d : Int) = n := Int.ediv_add_emod n d
  have hcast : ((d : Int) : Rat) * ((n / (d : Int) : Int) : Rat) + ((n % (d : Int) : Int) : Rat)
      = (n : Rat) := by exact_mod_cast congrArg (fun z : Int => (z : Rat)) hsum
  have hdd : ((d : Int) : Rat) = (d : Rat) := by push_cast; rfl
  have hfrac : (n : Rat) / (d : Rat) - ((n / (d : Int) : Int) : Rat)
      = ((n % (d : Int) : Int) : Rat) / (d : Rat) := by
    rw [eq_div_iff hdR.ne', sub_mul, div_mul_cancel₀ _ hdR.ne']
    rw [hdd] at hcast
    linarith
  have hlt : ((n : Rat) / (d : Rat) - ((n / (d : Int) : Int) : Rat) < (1 : Rat) / 2)
      ↔ (2 * (n % (d : Int)) < (d : Int)) := by
    rw [hfrac, div_lt_div_iff₀ hdR (by norm_num : (0 : Rat) < 2), one_mul]
    constructor
    · intro h
      have : ((n % (d : Int) : Int) : Rat) * 2 < ((d : Int) : Rat) := by rw [hdd]; exact h
      exact_mod_cast (by linarith : (2 : Rat) * ((n % (d : Int) : Int) : Rat) < ((d : Int) : Rat))
    · intro h
      have h2 : ((2 * (n % (d : Int)) : Int) : Rat) < ((d : Int) : Rat) := by exact_mod_cast h
      push_cast at h2
      rw [← hdd]
      push_cast
      linarith
  have hgt : ((1 : Rat) / 2 < (n : Rat) / (d : Rat) - ((n / (d : Int) : Int) : Rat))
      ↔ ((d : Int) < 2 * (n % (d : Int))) := by
    rw [hfrac, div_lt_div_iff₀ (by norm_num : (0 : Rat) < 2) hdR, one_mul]
    constructor
    · intro h
      have h2 : ((d : Int) : Rat) < ((2 * (n % (d : Int)) : Int) : Rat) := by
        rw [hdd]; push_cast; linarith
      exact_mod_cast h2
    · intro h
      have h2 : ((d : Int) : Rat) < ((2 * (n % (d : Int)) : Int) : Rat) := by exact_mod_cast h
      rw [hdd] at h2; push_cast at h2; linarith
  simp only [pyRound, pyRoundDiv, hfl]
  rw [if_congr hlt rfl rfl, if_congr hgt rfl rfl]

theorem pyRound_eq_of_eq_intCast {q : Rat} {n : Int} (h : q = (n : Rat)) : pyRound q = n := by
  rw [h, pyRound_intCast]

theorem pyRound_eq_of_eq_div {q : Rat} {n : Int} {d : Nat} (hd : 0 < d)
    (h : q = (n : Rat) / (d : Rat)) : pyRound q = pyRoundDiv n (d : Int) := by
  rw [h, pyRound_intCast_div_natCast n d hd]

theorem cellVal_eq (v : Nat) : cellVal v = (v : Rat) / 1000 := by
  have h : (v : Rat) / 1000 * 1000 = ((v : Int) : Rat) := by push_cast; field_simp
  simp only [cellVal, round3, pyRound_eq_of_eq_intCast h]
  push_cast; rfl

theorem sum_map_cellVal (raw : List Nat) :
    (raw.map cellVal).sum = ((raw.sum : Int) : Rat) / 1000 := by
  induction raw with
  | nil => simp
  | cons v l ih =>
    simp only [List.map_cons, List.sum_cons, ih, cellVal_eq, List.sum_cons]
    push_cast
    ring

theorem vGuess_map_cellVal (raw : List Nat) :
    vGuess (raw.map cellVal) = pyRoundDiv (raw.sum : Int) 10 := by
  have h : (raw.map cellVal).sum * 100 = ((raw.sum : Int) : Rat) / ((10 : Nat) : Rat) := by
    rw [sum_map_cellVal]; push_cast; ring
  have h10 : ((10 : Nat) : Int) = (10 : Int) := by norm_num
  rw [vGuess, pyRound_eq_of_eq_div (by norm_num) h, h10]

theorem calculate_crc_length (l : List Nat) : (calculate_crc l).length = 2 := rfl

theorem xor_one_shift_ne (a j : Nat) : a ^^^ (1 <<< j) ≠ a := by
  intro h
  have h2 : a ^^^ (a ^^^ (1 <<< j)) = a ^^^ a := by rw [h]
  rw [← Nat.xor_assoc, Nat.xor_self, Nat.zero_xor] at h2
  have h3 : (0 : Nat) < 1 <<< j := by
    rw [Nat.one_shiftLeft]
    exact Nat.pos_pow_of_pos j (by norm_num)
  omega

theorem flipBit_pair_ne (c0 c1 k : Nat) (hk : k < 16) : flipBit [c0, c1] k ≠ [c0, c1] := by
  rcases Nat.lt_or_ge k 8 with h8 | h8
  · have hdiv : k / 8 = 0 := Nat.div_eq_of_lt h8
    intro heq
    rw [flipBit, hdiv] at heq
    simp at heq
    exact xor_one_shift_ne c0 (k % 8) heq
  · have hdiv : k / 8 = 1 := by omega
    intro heq
    rw [flipBit, hdiv] at heq
    simp at heq
    exact xor_one_shift_ne c1 (k % 8) heq

theorem verify_crc_append (seq : List Nat) (h : seq ≠ []) :
    verify_crc (seq ++ calculate_crc seq) = true := by
  have hlen : (seq ++ calculate_crc seq).length = seq.length + 2 := by
    rw [List.length_append, calculate_crc_length]
  have hpos : 1 ≤ seq.length := List.length_pos.mpr h
  rw [verify_crc, hlen, if_neg (by omega)]
  have h2 : seq.length + 2 - 2 = seq.length := by omega
  rw [h2, List.drop_left, List.take_left]
  simp

theorem verify_crc_flip (seq : List Nat) (k : Nat) (hk : k < 16) :
    verify_crc (seq ++ flipBit (calculate_crc seq) k) = false := by
  obtain ⟨c0, c1, hc⟩ : ∃ c0 c1, calculate_crc seq = [c0, c1] := ⟨_, _, rfl⟩
  have hflen : (flipBit [c0, c1] k).length = 2 := by rw [flipBit]; simp
  have hlen : (seq ++ flipBit (calculate_crc seq) k).length = seq.length + 2 := by
    rw [List.length_append, hc, hflen]
  rcases eq_or_ne seq [] with hnil | hne
  · subst hnil
    rw [verify_crc, hlen]
    simp
  · have hpos : 1 ≤ seq.length := List.length_pos.mpr hne
    rw [verify_crc, hlen, if_neg (by omega)]
    have h2 : seq.length + 2 - 2 = seq.length := by omega
    have hd : (seq ++ flipBit (calculate_crc seq) k).drop seq.length
        = flipBit (calculate_crc seq) k := List.drop_left seq _
    have ht : (seq ++ flipBit (calculate_crc seq) k).take seq.length = seq :=
      List.take_left seq _
    rw [h2, hd, ht, hc]
    exact beq_eq_false_iff_ne.mpr (flipBit_pair_ne c0 c1 k hk)

/-- C7 (amended): for every nonempty byte sequence the CRC round-trip
    verifies; flipping any single bit of the appended two-byte CRC makes
    verification fail (for any sequence); and every frame shorter than 3
    bytes fails verification. The original claim also asserted the
    round-trip for the empty sequence, where the framed result has length 2
    and `verify_crc` rejects it. -/
theorem crc_roundtrip_flip_short :
    (∀ seq : List Nat, seq ≠ [] → verify_crc (seq ++ calculate_crc seq) = true) ∧
    (∀ (seq : List Nat) (k : Nat), k < 16 →
      verify_crc (seq ++ flipBit (calculate_crc seq) k) = false) ∧
    (∀ frame : List Nat, frame.length < 3 → verify_crc frame = false) := by
  refine ⟨verify_crc_append, verify_crc_flip, ?_⟩
  intro frame hlen
  rw [verify_crc, if_pos hlen]

/-- C7 counterexample: for the empty sequence the claimed round-trip fails,
    because the framed result is just the two CRC bytes and `verify_crc`
    rejects frames shorter than 3 bytes. -/
theorem crc_roundtrip_empty_fails :
    verify_crc (([] : List Nat) ++ calculate_crc []) = false ∧
    calculate_crc [] = [0xFF, 0xFF] := by
  constructor
  · decide
  · decide

/-- C7 witness: the round-trip holds at the concrete nonempty sequence
    `[0x3D, 0x01]`. -/
theorem crc_roundtrip_flip_short_witness :
    verify_crc ([0x3D, 0x01] ++ calculate_crc [0x3D, 0x01]) = true :=
  crc_roundtrip_flip_short.1 [0x3D, 0x01] (by decide)

theorem pairBE_length : ∀ l : List Nat, (pairBE l).length = l.length / 2
  | [] => rfl
  | [_] => by simp [pairBE]
  | a :: b :: rest => by
    simp [pairBE, pairBE_length rest]
    omega

theorem getD_eq_zero_of_le {l : List Nat} {i : Nat} (h : l.length ≤ i) : l.getD i 0 = 0 :=
  List.getD_eq_default l 0 h

/-- C6 (amended): the decoding policy of `read_registers`, in order: an empty
    response is `noResponse`; a response whose function-code echo byte has
    bit 0x80 set is `DeviceException` carrying the byte following (0 when
    absent); then a CRC mismatch is `FrameCorrupt`; then fewer than 5 bytes
    is `FrameTooShort`; otherwise `byteCount` is read from offset 2 and
    `min(byteCount, len-3)` bytes from offset 3 — not always exactly
    `byteCount` bytes, which the original claim asserted — are paired
    big-endian, a trailing odd byte dropped silently. -/
theorem readRegisters_policy :
    (readRegistersDecode [] = RegResult.noResponse) ∧
    (∀ resp : List Nat, 2 ≤ resp.length → resp.getD 1 0 &&& 0x80 ≠ 0 →
      readRegistersDecode resp = RegResult.deviceException (resp.getD 2 0)) ∧
    (∀ resp : List Nat, resp ≠ [] → resp.getD 1 0 &&& 0x80 = 0 → verify_crc resp = false →
      readRegistersDecode resp = RegResult.frameCorrupt) ∧
    (∀ resp : List Nat, resp ≠ [] → resp.getD 1 0 &&& 0x80 = 0 → verify_crc resp = true →
      resp.length < 5 → readRegistersDecode resp = RegResult.frameTooShort) ∧
    (∀ resp : List Nat, resp ≠ [] → resp.getD 1 0 &&& 0x80 = 0 → verify_crc resp = true →
      5 ≤ resp.length →
      readRegistersDecode resp = RegResult.ok (pairBE ((resp.drop 3).take (resp.getD 2 0))) ∧
      (pairBE ((resp.drop 3).take (resp.getD 2 0))).length
        = min (resp.getD 2 0) (resp.length - 3) / 2) := by
  refine ⟨rfl, ?_, ?_, ?_, ?_⟩
  · intro resp h2 hbit
    have hne : resp ≠ [] := by
      intro h
      subst h
      simp at h2
    rw [readRegistersDecode, if_neg hne, if_pos ⟨h2, hbit⟩]
    congr 1
    rcases Nat.lt_or_ge 2 resp.length with h | h
    · rw [if_pos h]
    · rw [if_neg (by omega)]
      exact (getD_eq_zero_of_le (by omega)).symm
  · intro resp hne hbit hcrc
    rw [readRegistersDecode, if_neg hne, if_neg (fun h => h.2 hbit), if_pos hcrc]
  · intro resp hne hbit hcrc hlen
    rw [readRegistersDecode, if_neg hne, if_neg (fun h => h.2 hbit),
      if_neg (by simp [hcrc]), if_pos hlen]
  · intro resp hne hbit hcrc hlen
    constructor
    · rw [readRegistersDecode, if_neg hne, if_neg (fun h => h.2 hbit),
        if_neg (by simp [hcrc]), if_neg (by omega)]
    · rw [pairBE_length, List.length_take, List.length_drop]

/-- C6 counterexample: a CRC-valid, accepted response whose `byteCount` field
    claims 8 bytes while only 4 bytes follow offset 3: the decoder takes the
    4 available bytes (two registers), not the claimed 8 (four registers),
    so "exactly byteCount payload bytes are taken" fails here. -/
theorem readRegisters_policy_counterexample :
    respOverclaim.getD 2 0 = 8 ∧
    readRegistersDecode respOverclaim = RegResult.ok (pairBE ((respOverclaim.drop 3).take 8)) ∧
    ((respOverclaim.drop 3).take 8).length = 4 ∧
    (pairBE ((respOverclaim.drop 3).take 8)).length = 2 ∧ ¬((2 : Nat) = 8 / 2) := by
  refine ⟨by decide, by decide, by decide, by decide, by decide⟩

/-- C6 witness: the policy applied to the concrete accepted response
    `respShort` yields the single register `0x1234`. -/
theorem readRegisters_policy_witness :
    readRegistersDecode respShort = RegResult.ok (pairBE ((respShort.drop 3).take
      (respShort.getD 2 0))) :=
  ((readRegisters_policy.2.2.2.2) respShort (by decide) (by decide) (by decide) (by decide)).1

/-- C10: for every accepted response the returned register list has length
    `min(byteCount, len(response) - 3) / 2` — `byteCount` is never checked
    against the bytes received or the requested count; concretely, a
    request for 2 registers can come back accepted with only 1, and a
    `byteCount` that over-claims the payload drags the two trailing CRC
    bytes into the decoded register data. -/
theorem readRegisters_byteCount_unchecked :
    (∀ (resp : List Nat) (regs : List Nat), readRegistersDecode resp = RegResult.ok regs →
      regs.length = min (resp.getD 2 0) (resp.length - 3) / 2) ∧
    (read_registers oracleShortResp 0x01 0x0000 2 0x04 = some [0x1234] ∧
      ([0x1234] : List Nat).length < 2) ∧
    (readRegistersDecode respCrcLeak = RegResult.ok [0xABCD,
        ((calculate_crc [1, 4, 6, 0xAB, 0xCD]).getD 0 0 <<< 8) |||
          (calculate_crc [1, 4, 6, 0xAB, 0xCD]).getD 1 0] ∧
      (respCrcLeak.drop 3).take (respCrcLeak.getD 2 0)
        = [0xAB, 0xCD] ++ calculate_crc [1, 4, 6, 0xAB, 0xCD]) := by
  refine ⟨?_, ⟨by decide, by decide⟩, ⟨by decide, by decide⟩⟩
  intro resp regs h
  rw [readRegistersDecode] at h
  split_ifs at h
  all_goals cases h
  all_goals rw [pairBE_length, List.length_take, List.length_drop]

/-- C10 witness: the length law applied at the concrete accepted response
    `respShort`. -/
theorem readRegisters_byteCount_unchecked_witness :
    ([0x1234] : List Nat).length = min (respShort.getD 2 0) (respShort.length - 3) / 2 :=
  readRegisters_byteCount_unchecked.1 respShort [0x1234] (by decide)

theorem find?_range'_eq_some {p : Nat → Bool} :
    ∀ {n s i : Nat}, ((List.range' s n).find? p = some i) ↔
      (s ≤ i ∧ i < s + n ∧ p i = true ∧ ∀ j, s ≤ j → j < i → p j = false) := by
  intro n
  induction n with
  | zero =>
    intro s i
    simp only [List.range'_zero, List.find?_nil]
    constructor
    · intro h; cases h
    · rintro ⟨h1, h2, -, -⟩; omega
  | succ n ih =>
    intro s i
    rw [List.range'_succ]
    by_cases hps : p s = true
    · rw [List.find?_cons_of_pos _ hps]
      constructor
      · intro h
        injection h with h
        subst h
        exact ⟨Nat.le_refl s, by omega, hps, fun j h1 h2 => by omega⟩
      · rintro ⟨h1, h2, h3, h4⟩
        rcases Nat.eq_or_lt_of_le h1 with he | hlt
        · rw [he]
        · have := h4 s (Nat.le_refl s) hlt
          rw [hps] at this
          cases this
    · rw [List.find?_cons_of_neg _ hps, ih]
      have hfalse : p s = false := by
        cases hq : p s
        · rfl
        · exact absurd hq hps
      constructor
      · rintro ⟨h1, h2, h3, h4⟩
        refine ⟨by omega, by omega, h3, fun j hj1 hj2 => ?_⟩
        rcases Nat.eq_or_lt_of_le hj1 with he | hlt
        · rw [← he]; exact hfalse
        · exact h4 j (by omega) hj2
      · rintro ⟨h1, h2, h3, h4⟩
        have hsi : s ≠ i := by
          intro he
          rw [← he] at h3
          rw [hfalse] at h3
          cases h3
        exact ⟨by omega, by omega, h3, fun j hj1 hj2 => h4 j (by omega) hj2⟩

/-- C3: the locator accepts the first byte offset at or after the scan
    start, sliding byte-by-byte and stopping 8 bytes before the end of the
    payload, whose little-endian 16-bit value lies inside the tolerance
    window; for 4 cells of 3.250 V summing to exactly 13.00 V, a planted
    value of 1312 at offset 10 is found at exactly that offset, while 1313
    is a miss. -/
theorem locator_first_match :
    (∀ (d : List Nat) (b : Nat) (lo hi : Int) (i : Nat),
      findPackIdx d b lo hi = some i ↔
        (b ≤ i ∧ i < d.length - 8 ∧ inWindow d lo hi i = true ∧
          ∀ j, b ≤ j → j < i → inWindow d lo hi j = false)) ∧
    bmsPackIdx d1312 4 = some (some 10) ∧
    bmsPackIdx d1313 4 = some none := by
  refine ⟨?_, ?_, ?_⟩
  · intro d b lo hi i
    rw [findPackIdx, find?_range'_eq_some]
    constructor
    · rintro ⟨h1, h2, h3, h4⟩
      exact ⟨h1, by omega, h3, h4⟩
    · rintro ⟨h1, h2, h3, h4⟩
      exact ⟨h1, by omega, h3, h4⟩
  · rw [bmsPackIdx, show cellsRaw d1312 4 = some [3250, 3250, 3250, 3250] from by decide]
    simp only [Option.map_some', vGuess_map_cellVal]
    decide
  · rw [bmsPackIdx, show cellsRaw d1313 4 = some [3250, 3250, 3250, 3250] from by decide]
    simp only [Option.map_some', vGuess_map_cellVal]
    decide

/-- C3 witness: the first-match characterization applied backwards at the
    concrete payload `d1312` recovers the planted offset. -/
theorem locator_first_match_witness :
    findPackIdx d1312 8 1288 1312 = some 10 :=
  (locator_first_match.1 d1312 8 1288 1312 10).mpr (by decide)

theorem zrGo_zeros : ∀ (k : Nat) (l : List Nat) (i run : Nat),
    zrGo (List.replicate k 0 ++ l) i run = zrGo l (i + k) (run + k) := by
  intro k
  induction k with
  | zero =>
    intro l i run
    simp [List.replicate]
  | succ k ih =>
    intro l i run
    rw [List.replicate_succ, List.cons_append, zrGo, if_pos rfl, ih]
    have e1 : i + 1 + k = i + (k + 1) := by omega
    have e2 : run + 1 + k = run + (k + 1) := by omega
    rw [e1, e2]

theorem baseStart_skip (d : List Nat) (start k b : Nat) (rest : List Nat)
    (hdrop : d.drop start = List.replicate k 0 ++ b :: rest) (hb : b ≠ 0) (hk : 16 ≤ k) :
    baseStart d start = start + k := by
  rw [baseStart, hdrop, zrGo_zeros, zrGo, if_neg hb, if_pos (by omega)]
  rfl

theorem baseStart_zeros_to_end (d : List Nat) (start k : Nat)
    (hdrop : d.drop start = List.replicate k 0) :
    baseStart d start = start := by
  have h2 : d.drop start = List.replicate k 0 ++ ([] : List Nat) := by rw [hdrop]; simp
  rw [baseStart, h2, zrGo_zeros]
  rfl

theorem zrGo_none_aux (d : List Nat) (start : Nat)
    (hno : ∀ j, start ≤ j → ∃ m, m < 16 ∧ d.getD (j + m) 1 ≠ 0) :
    ∀ (l : List Nat) (i run : Nat), l = d.drop i → start + run ≤ i →
      (∀ m, m < run → d.getD (i - run + m) 1 = 0) → zrGo l i run = none := by
  intro l
  induction l with
  | nil => intro i run _ _ _; rfl
  | cons b rest ih =>
    intro i run hdrop hle hzeros
    have hget : d[i]? = some b := by
      have h0 : (d.drop i)[0]? = d[i + 0]? := List.getElem?_drop d i 0
      rw [← hdrop] at h0
      simpa using h0.symm
    have hgetD : d.getD i 1 = b := by
      simp [List.getD_eq_getElem?_getD, hget]
    have hrest : rest = d.drop (i + 1) := by
      have h1 := congrArg (List.drop 1) hdrop
      rw [List.drop_drop] at h1
      simpa using h1
    rw [zrGo]
    by_cases hb : b = 0
    · rw [if_pos hb]
      refine ih (i + 1) (run + 1) hrest (by omega) ?_
      intro m hm
      have he : i + 1 - (run + 1) = i - run := by omega
      rw [he]
      rcases Nat.lt_or_ge m run with hlt | hge
      · exact hzeros m hlt
      · have hm' : m = run := by omega
        rw [hm']
        have he2 : i - run + run = i := by omega
        rw [he2, hgetD, hb]
    · rw [if_neg hb]
      by_cases h16 : 16 ≤ run
      · exfalso
        obtain ⟨m, hm, hmne⟩ := hno (i - run) (by omega)
        exact hmne (hzeros m (by omega))
      · rw [if_neg h16]
        refine ih (i + 1) 0 hrest (by omega) ?_
        intro m hm
        exact absurd hm (Nat.not_lt_zero m)

theorem no_run_of_hasRun16From_false (d : List Nat) (start : Nat)
    (hno : hasRun16From d start = false) :
    ∀ j, start ≤ j → ∃ m, m < 16 ∧ d.getD (j + m) 1 ≠ 0 := by
  intro j hj
  by_cases hjlen : j < d.length
  · have hf := (List.any_eq_false.mp hno) j (List.mem_range.mpr hjlen)
    simp only [Bool.and_eq_true, decide_eq_true_eq, List.all_eq_true, List.mem_range,
      beq_iff_eq, not_and, not_forall] at hf
    obtain ⟨m, hm, hne⟩ := hf hj
    exact ⟨m, hm, hne⟩
  · refine ⟨0, by omega, ?_⟩
    rw [Nat.add_zero, List.getD_eq_default d 1 (by omega)]
    norm_num

theorem baseStart_of_no_long_run (d : List Nat) (start : Nat)
    (hno : hasRun16From d start = false) : baseStart d start = start := by
  rw [baseStart,
    zrGo_none_aux d start (no_run_of_hasRun16From_false d start hno) (d.drop start) start 0 rfl
      (by omega) (fun m hm => absurd hm (Nat.not_lt_zero m))]
  rfl

/-- C4 (amended): the scan start is `max(2*seriesCount, 8)`; a run of at
    least 16 consecutive zero bytes beginning there and followed by a
    further nonzero byte moves the scan start past the run; but a run that
    extends to the very end of the payload leaves the scan start unchanged
    (which the original claim did not allow), as does the absence of any
    16-byte zero run; concretely a terminated 20-byte run moves the start
    from 8 to 28 and a 10-byte run leaves it at 8. -/
theorem zeroRunSkip :
    (∀ sc : Nat, scanStart sc = max (2 * sc) 8) ∧
    (∀ (d : List Nat) (sc k b : Nat) (rest : List Nat),
      d.drop (scanStart sc) = List.replicate k 0 ++ b :: rest → b ≠ 0 → 16 ≤ k →
      bmsBaseStart d sc = scanStart sc + k) ∧
    (∀ (d : List Nat) (sc k : Nat), d.drop (scanStart sc) = List.replicate k 0 →
      bmsBaseStart d sc = scanStart sc) ∧
    (∀ (d : List Nat) (sc : Nat), hasRun16From d (scanStart sc) = false →
      bmsBaseStart d sc = scanStart sc) ∧
    bmsBaseStart dSkip20 4 = 28 ∧
    bmsBaseStart dRun10 4 = 8 := by
  refine ⟨fun sc => rfl, ?_, ?_, ?_, by decide, by decide⟩
  · intro d sc k b rest hdrop hb hk
    exact baseStart_skip d (scanStart sc) k b rest hdrop hb hk
  · intro d sc k hdrop
    exact baseStart_zeros_to_end d (scanStart sc) k hdrop
  · intro d sc hno
    exact baseStart_of_no_long_run d (scanStart sc) hno

/-- C4 counterexample: a 20-byte zero run beginning exactly at the scan
    start (offset 8) but running to the end of the payload does not move
    the scan start: it stays 8 instead of moving past the run to 28. -/
theorem zeroRunSkip_counterexample :
    bmsBaseStart dRunEnd 4 = 8 ∧ scanStart 4 = 8 ∧ dRunEnd.length = 28 ∧
    (∀ m, m < 20 → dRunEnd.getD (8 + m) 1 = 0) ∧ ¬(bmsBaseStart dRunEnd 4 = 28) := by
  refine ⟨by decide, by decide, by decide, by decide, by decide⟩

/-- C4 witness: the skip law applied at the concrete payload `dSkip20`
    moves the scan start past its terminated 20-byte zero run. -/
theorem zeroRunSkip_witness : bmsBaseStart dSkip20 4 = scanStart 4 + 20 :=
  zeroRunSkip.2.1 dSkip20 4 20 7 [0, 0] (by decide) (by decide) (by decide)

theorem u16_le_eq_none_iff (buf : List Nat) (i : Nat) :
    u16_le buf i = none ↔ buf.length ≤ i + 1 := by
  rw [u16_le]
  by_cases h : buf.length ≤ i + 1
  · have h2 : buf[i + 1]? = none := List.getElem?_eq_none h
    rw [h2]
    cases buf[i]? <;> simp [h]
  · have hi1 : i + 1 < buf.length := by omega
    have hi : i < buf.length := by omega
    rw [List.getElem?_eq_getElem hi1, List.getElem?_eq_getElem hi]
    simp [h]

theorem cellsRawGo_none_of_mem (d : List Nat) :
    ∀ (L : List Nat) (i : Nat), i ∈ L → u16_le d (2 * i) = none → cellsRawGo d L = none := by
  intro L
  induction L with
  | nil =>
    intro i hi
    cases hi
  | cons a L ih =>
    intro i hi hnone
    rw [cellsRawGo]
    rcases List.mem_cons.mp hi with he | hmem
    · rw [he] at hnone
      rw [hnone]
    · rw [ih i hmem hnone]
      cases h1 : u16_le d (2 * a) <;> rfl

theorem cellsRawGo_isSome (d : List Nat) :
    ∀ L : List Nat, (∀ i ∈ L, 2 * i + 1 < d.length) → (cellsRawGo d L).isSome = true := by
  intro L
  induction L with
  | nil =>
    intro _
    rfl
  | cons a L ih =>
    intro hall
    rw [cellsRawGo]
    have h1 : ¬(u16_le d (2 * a) = none) := by
      rw [u16_le_eq_none_iff]
      have := hall a (List.mem_cons_self a L)
      omega
    cases hu : u16_le d (2 * a) with
    | none => exact absurd hu h1
    | some v =>
      have h2 := ih fun i hi => hall i (List.mem_cons_of_mem a hi)
      cases hgo : cellsRawGo d L with
      | none =>
        rw [hgo] at h2
        cases h2
      | some vs => rfl

theorem cellsRaw_none_of_short (d : List Nat) (sc : Nat) (h : d.length < 2 * sc) :
    cellsRaw d sc = none := by
  have hsc : 1 ≤ sc := by omega
  apply cellsRawGo_none_of_mem d (List.range sc) (sc - 1) (List.mem_range.mpr (by omega))
  rw [u16_le_eq_none_iff]
  omega

theorem cellsRaw_isSome_of_len (d : List Nat) (sc : Nat) (h : 2 * sc ≤ d.length) :
    (cellsRaw d sc).isSome = true := by
  apply cellsRawGo_isSome
  intro i hi
  have := List.mem_range.mp hi
  omega

theorem decode0x00_none_of_short (rx : List Nat) (sc : Nat)
    (h : (bmsPayload rx).length < 2 * sc) : decode0x00 rx sc = none := by
  rw [decode0x00, cellsRaw_none_of_short _ _ h]

/-- C2 (amended): when a command-0x00 response that passes the checksum and
    the length guard is truncated so that fewer than seriesCount 16-bit cell
    values are present, the cell decode hits an out-of-range access; the
    top-level exception handler then fails the whole BMS read (no BMS fields
    at all, and the MOS commands are not sent) — it does not default the
    missing cells to 0.0. When at least seriesCount 16-bit values are
    present, the cell decode always succeeds. -/
theorem truncatedCells :
    (∀ (rx : List Nat) (sc : Nat), (bmsPayload rx).length < 2 * sc →
      decode0x00 rx sc = none) ∧
    (∀ (rx : List Nat) (sc : Nat), 2 * sc ≤ (bmsPayload rx).length →
      (cellsRaw (bmsPayload rx) sc).isSome = true) ∧
    (∀ (o : Oracle) (sc : Nat) (rx : List Nat),
      seriesFrom27 (bms_send o 0x27) = some sc → bms_send o 0x00 = some rx →
      20 < rx.length → (bmsPayload rx).length < 2 * sc →
      (read_bms_data o).1 = none ∧ (read_bms_data o).2 = [Req.bms 0x27, Req.bms 0x00]) := by
  refine ⟨decode0x00_none_of_short, ?_, ?_⟩
  · intro rx sc h
    exact cellsRaw_isSome_of_len _ _ h
  · intro o sc rx h27 h0 hlen hshort
    simp only [read_bms_data, h27, bms0x00Block, h0, if_pos hlen,
      decode0x00_none_of_short rx sc hshort]
    exact ⟨trivial, trivial⟩

/-- C2 counterexample: the 0x27 exchange reports 24 cells and the 0x00
    exchange returns a checksum-valid 22-byte frame (14 payload bytes, room
    for only 7 cell values): the whole BMS read fails with no fields at
    all, instead of producing the remaining fields with missing cells read
    as 0.0. -/
theorem truncatedCells_counterexample :
    seriesFrom27 (bms_send oracleTrunc 0x27) = some 24 ∧
    bms_send oracleTrunc 0x00 = some (List.replicate 22 0) ∧
    20 < (List.replicate 22 (0 : Nat)).length ∧
    (read_bms_data oracleTrunc).1 = none := by
  refine ⟨by decide, by decide, by decide, by decide⟩

/-- C2 witness: the truncation law applied at a concrete 22-byte all-zero
    frame with 24 reported cells. -/
theorem truncatedCells_witness : decode0x00 (List.replicate 22 0) 24 = none :=
  truncatedCells.1 (List.replicate 22 0) 24 (by decide)

theorem decode0x00_found (rx : List Nat) (sc : Nat) (raw : List Nat) (i : Nat)
    (hraw : cellsRaw (bmsPayload rx) sc = some raw)
    (hfind : findPackIdx (bmsPayload rx) (bmsBaseStart (bmsPayload rx) sc)
      (vGuess (raw.map cellVal) - 12) (vGuess (raw.map cellVal) + 12) = some i) :
    decode0x00 rx sc = some (bmsKVsFound (raw.map cellVal) (bmsPayload rx) i) := by
  simp only [decode0x00, hraw, hfind]

theorem decode0x00_miss (rx : List Nat) (sc : Nat) (raw : List Nat)
    (hraw : cellsRaw (bmsPayload rx) sc = some raw)
    (hfind : findPackIdx (bmsPayload rx) (bmsBaseStart (bmsPayload rx) sc)
      (vGuess (raw.map cellVal) - 12) (vGuess (raw.map cellVal) + 12) = none) :
    decode0x00 rx sc = some (bmsKVsMiss (raw.map cellVal)) := by
  simp only [decode0x00, hraw, hfind]

theorem lookup_found_soc (cells : List Rat) (d : List Nat) (i : Nat) :
    List.lookup "bms_battery_soc" (bmsKVsFound cells d i)
      = some (Val.nat (socClamp (candByte d (i + 6)))) := by
  simp [bmsKVsFound, bmsCellKVs, List.lookup]

theorem lookup_found_soh (cells : List Rat) (d : List Nat) (i : Nat) :
    List.lookup "bms_battery_soh" (bmsKVsFound cells d i)
      = some (Val.nat (socClamp (candByte d (i + 7)))) := by
  simp [bmsKVsFound, bmsCellKVs, List.lookup]

theorem lookup_miss_soc (cells : List Rat) :
    List.lookup "bms_battery_soc" (bmsKVsMiss cells) = some (Val.nat 0) := by
  simp [bmsKVsMiss, bmsCellKVs, List.lookup]

theorem lookup_miss_soh (cells : List Rat) :
    List.lookup "bms_battery_soh" (bmsKVsMiss cells) = some (Val.nat 0) := by
  simp [bmsKVsMiss, bmsCellKVs, List.lookup]

theorem lookup_miss_voltage (cells : List Rat) :
    List.lookup "bms_battery_voltage" (bmsKVsMiss cells)
      = some (Val.num (round2 cells.sum)) := by
  simp [bmsKVsMiss, bmsCellKVs, List.lookup]

theorem lookup_miss_current (cells : List Rat) :
    List.lookup "bms_battery_current" (bmsKVsMiss cells) = some (Val.num 0) := by
  simp [bmsKVsMiss, bmsCellKVs, List.lookup]

theorem lookup_miss_power (cells : List Rat) :
    List.lookup "bms_battery_power" (bmsKVsMiss cells)
      = some (Val.num (round2 (round2 cells.sum * 0))) := by
  simp [bmsKVsMiss, bmsCellKVs, List.lookup]

theorem socClamp_candByte (d : List Nat) (i : Nat) :
    socClamp (candByte d i)
      = if i < d.length ∧ d.getD i 0 ≤ 100 then d.getD i 0 else 0 := by
  rw [socClamp, candByte]
  by_cases h1 : i < d.length
  · by_cases h2 : d.getD i 0 ≤ 100
    · rw [if_pos h1, if_pos h2, if_pos ⟨h1, h2⟩]
    · rw [if_pos h1, if_neg h2, if_neg (by tauto)]
  · rw [if_neg h1, if_neg (by norm_num), if_neg (by tauto)]

theorem bmsPayload_rxOf (d : List Nat) : bmsPayload (rxOf d) = d := by
  rw [bmsPayload, rxOf]
  rw [List.drop_append_of_le_length (by simp)]
  show ((([0] : List Nat) ++ (d ++ [0])).dropLast).drop 1 = d
  rw [show (([0] : List Nat) ++ (d ++ [0])) = (0 :: d) ++ [0] by simp]
  rw [List.dropLast_concat]
  rfl

/-- C1 (amended): for every decoded BMS command-0x00 payload in which the
    locator finds a pack index, the reported SOC is the byte at
    `packIndex+6` when that byte is in `[0, 100]` and the integer 0
    otherwise (out of range, or `packIndex+6`/`packIndex+7` beyond the
    payload length) — the code reports the in-band value 0, not a
    distinguishable "unknown" sentinel — and SOH is the byte at
    `packIndex+7` under the same rule; in the locator-miss fallback SOC and
    SOH also report 0. -/
theorem socSohDecoding :
    (∀ (rx : List Nat) (sc : Nat) (raw : List Nat) (i : Nat),
      cellsRaw (bmsPayload rx) sc = some raw →
      findPackIdx (bmsPayload rx) (bmsBaseStart (bmsPayload rx) sc)
        (vGuess (raw.map cellVal) - 12) (vGuess (raw.map cellVal) + 12) = some i →
      (decode0x00 rx sc).bind (List.lookup "bms_battery_soc") =
        some (Val.nat (if i + 6 < (bmsPayload rx).length ∧ (bmsPayload rx).getD (i + 6) 0 ≤ 100
          then (bmsPayload rx).getD (i + 6) 0 else 0)) ∧
      (decode0x00 rx sc).bind (List.lookup "bms_battery_soh") =
        some (Val.nat (if i + 7 < (bmsPayload rx).length ∧ (bmsPayload rx).getD (i + 7) 0 ≤ 100
          then (bmsPayload rx).getD (i + 7) 0 else 0))) ∧
    (∀ (rx : List Nat) (sc : Nat) (raw : List Nat),
      cellsRaw (bmsPayload rx) sc = some raw →
      findPackIdx (bmsPayload rx) (bmsBaseStart (bmsPayload rx) sc)
        (vGuess (raw.map cellVal) - 12) (vGuess (raw.map cellVal) + 12) = none →
      (decode0x00 rx sc).bind (List.lookup "bms_battery_soc") = some (Val.nat 0) ∧
      (decode0x00 rx sc).bind (List.lookup "bms_battery_soh") = some (Val.nat 0)) := by
  constructor
  · intro rx sc raw i hraw hfind
    rw [decode0x00_found rx sc raw i hraw hfind]
    constructor
    · rw [Option.some_bind, lookup_found_soc, socClamp_candByte]
    · rw [Option.some_bind, lookup_found_soh, socClamp_candByte]
  · intro rx sc raw hraw hfind
    rw [decode0x00_miss rx sc raw hraw hfind]
    exact ⟨by rw [Option.some_bind, lookup_miss_soc], by rw [Option.some_bind, lookup_miss_soh]⟩

/-- C1 counterexample: in the payload `dSoc255` the locator finds the pack
    group at offset 8 and the SOC byte at offset 14 is 255 (out of range);
    the read reports the plain integer 0 — an in-band value, not the
    sentinel string "unknown" the claim describes. -/
theorem socSohDecoding_counterexample :
    (decode0x00 (rxOf dSoc255) 4).bind (List.lookup "bms_battery_soc") = some (Val.nat 0) ∧
    dSoc255.getD 14 0 = 255 ∧
    ¬(Val.nat 0 = Val.str "unknown") := by
  refine ⟨?_, by decide, by decide⟩
  have hraw : cellsRaw (bmsPayload (rxOf dSoc255)) 4 = some [3250, 3250, 3250, 3250] := by
    rw [bmsPayload_rxOf]
    decide
  have hfind : findPackIdx (bmsPayload (rxOf dSoc255)) (bmsBaseStart (bmsPayload (rxOf dSoc255)) 4)
      (vGuess (List.map cellVal [3250, 3250, 3250, 3250]) - 12)
      (vGuess (List.map cellVal [3250, 3250, 3250, 3250]) + 12) = some 8 := by
    rw [bmsPayload_rxOf, vGuess_map_cellVal]
    decide
  rw [decode0x00_found (rxOf dSoc255) 4 [3250, 3250, 3250, 3250] 8 hraw hfind,
    Option.some_bind, lookup_found_soc, bmsPayload_rxOf]
  decide

/-- C1 witness: at the concrete payload `dSoc55` (SOC byte 55, SOH byte 66,
    both in range at offsets 14 and 15 past the pack index 8) the read
    reports exactly those bytes. -/
theorem socSohDecoding_witness :
    (decode0x00 (rxOf dSoc55) 4).bind (List.lookup "bms_battery_soc") = some (Val.nat 55) ∧
    (decode0x00 (rxOf dSoc55) 4).bind (List.lookup "bms_battery_soh") = some (Val.nat 66) := by
  have h := socSohDecoding.1 (rxOf dSoc55) 4 [3250, 3250, 3250, 3250] 8
    (by rw [bmsPayload_rxOf]; decide)
    (by rw [bmsPayload_rxOf, vGuess_map_cellVal]; decide)
  constructor
  · rw [h.1, bmsPayload_rxOf]
    decide
  · rw [h.2, bmsPayload_rxOf]
    decide

/-- C5: when no offset matches the tolerance window (locator miss), the BMS
    read still returns a reading rather than an error: pack voltage is the
    sum of the decoded cell voltages rounded to 2 decimals, pack current is
    0.0, pack power is voltage times current rounded to 2 decimals, and the
    whole `read_bms_data` still produces a dictionary. -/
theorem locatorMissFallback :
    ∀ (rx : List Nat) (sc : Nat) (raw : List Nat),
      cellsRaw (bmsPayload rx) sc = some raw →
      findPackIdx (bmsPayload rx) (bmsBaseStart (bmsPayload rx) sc)
        (vGuess (raw.map cellVal) - 12) (vGuess (raw.map cellVal) + 12) = none →
      decode0x00 rx sc = some (bmsKVsMiss (raw.map cellVal)) ∧
      List.lookup "bms_battery_voltage" (bmsKVsMiss (raw.map cellVal))
        = some (Val.num (round2 (raw.map cellVal).sum)) ∧
      List.lookup "bms_battery_current" (bmsKVsMiss (raw.map cellVal)) = some (Val.num 0) ∧
      List.lookup "bms_battery_power" (bmsKVsMiss (raw.map cellVal))
        = some (Val.num (round2 (round2 (raw.map cellVal).sum * 0))) ∧
      (∀ o : Oracle, seriesFrom27 (bms_send o 0x27) = some sc → bms_send o 0x00 = some rx →
        20 < rx.length → (read_bms_data o).1.isSome = true) := by
  intro rx sc raw hraw hfind
  refine ⟨decode0x00_miss rx sc raw hraw hfind, lookup_miss_voltage _, lookup_miss_current _,
    lookup_miss_power _, ?_⟩
  intro o h27 h0 hlen
  simp only [read_bms_data, h27, bms0x00Block, h0, if_pos hlen,
    decode0x00_miss rx sc raw hraw hfind]
  rfl

/-- C5 witness: at the concrete payload `dMissAll` (four 0 V cells, every
    scanned value 257 and thus outside the window around 0) the fallback
    reading is produced. -/
theorem locatorMissFallback_witness :
    decode0x00 (rxOf dMissAll) 4 = some (bmsKVsMiss (List.map cellVal [0, 0, 0, 0])) :=
  (locatorMissFallback (rxOf dMissAll) 4 [0, 0, 0, 0]
    (by rw [bmsPayload_rxOf]; decide)
    (by rw [bmsPayload_rxOf, vGuess_map_cellVal]; decide)).1

/-- C8: every MPPT register value is divided by 100 except SOC, which is
    kept raw; a raw battery-current register above 32767 is re-read as
    negative by subtracting 65536; the derived powers are the stored
    voltage times the stored current, rounded to 2 decimals; and the
    concrete registers 1960 (0x304E) and 578 (0x304F) decode to
    `mppt_pv_voltage = 19.60`, `mppt_pv_current = 5.78` and
    `mppt_pv_power = 113.29`. -/
theorem mpptScaling :
    (∀ (v1 v2 v3 v4 v5 : Nat) (r1 r2 r3 r4 r5 : List Nat),
      mpptKVs (some (v1 :: r1)) (some (v2 :: r2)) (some (v3 :: r3)) (some (v4 :: r4))
          (some (v5 :: r5)) =
        [("mppt_pv_voltage", Val.num (round2 ((v1 : Rat) / 100))),
         ("mppt_pv_current", Val.num (round2 ((v2 : Rat) / 100))),
         ("mppt_battery_soc", Val.nat v3),
         ("mppt_battery_voltage", Val.num (round2 ((v4 : Rat) / 100))),
         ("mppt_battery_current",
          Val.num (round2 (((if 32767 < v5 then (v5 : Int) - 65536 else (v5 : Int)) : Rat) / 100))),
         ("mppt_pv_power",
          Val.num (round2 (round2 ((v1 : Rat) / 100) * round2 ((v2 : Rat) / 100)))),
         ("mppt_battery_power",
          Val.num (round2 (round2 ((v4 : Rat) / 100) *
            round2 (((if 32767 < v5 then (v5 : Int) - 65536 else (v5 : Int)) : Rat) / 100))))]) ∧
    mpptKVs (some [1960]) (some [578]) none none none =
      [("mppt_pv_voltage", Val.num 19.6), ("mppt_pv_current", Val.num 5.78),
       ("mppt_pv_power", Val.num 113.29)] := by
  constructor
  · intro v1 v2 v3 v4 v5 r1 r2 r3 r4 r5
    rfl
  · have e1 : round2 (((1960 : Nat) : Rat) / 100) = (19.6 : Rat) := by
      rw [round2, pyRound_eq_of_eq_intCast
        (show ((1960 : Nat) : Rat) / 100 * 100 = ((1960 : Int) : Rat) by push_cast; norm_num)]
      norm_num
    have e2 : round2 (((578 : Nat) : Rat) / 100) = (5.78 : Rat) := by
      rw [round2, pyRound_eq_of_eq_intCast
        (show ((578 : Nat) : Rat) / 100 * 100 = ((578 : Int) : Rat) by push_cast; norm_num)]
      norm_num
    have e3 : round2 ((19.6 : Rat) * 5.78) = (113.29 : Rat) := by
      rw [round2, pyRound_eq_of_eq_div (show 0 < (10 : Nat) by norm_num)
        (show (19.6 : Rat) * 5.78 * 100 = ((113288 : Int) : Rat) / ((10 : Nat) : Rat) by
          push_cast; norm_num)]
      have hv : pyRoundDiv 113288 ((10 : Nat) : Int) = 11329 := by decide
      rw [hv]
      norm_num
    show mpptKVs (some [1960]) (some [578]) none none none = _
    simp only [mpptKVs, regHead]
    rw [e1, e2, e3]
    rfl

/-- C9 (amended): one poll cycle reads the devices in the fixed order MPPT,
    ENV, LDR, BMS, PIR; the aggregate is the concatenation of the devices'
    own readings, so a failed device contributes no keys; each device's
    reading depends only on that device's own responses, so a failure never
    prevents the other devices from being polled; and within the BMS the
    command sequence is 0x27, 0x00, 0x2D, 0x2E except that a decode
    exception inside the 0x27 or 0x00 handling cuts the remaining BMS
    commands short (which the original claim did not allow); the cycle
    itself always completes. -/
theorem pollCycle : ∀ o : Oracle,
    (read_all_devices o).1 = readingOf Dev.mppt o ++ readingOf Dev.env o ++
      readingOf Dev.ldr o ++ readingOf Dev.bms o ++ readingOf Dev.pir o ∧
    (read_all_devices o).2 = mpptReqs ++ envReqs ++ ldrReqs ++ (read_bms_data o).2 ++ pirReqs ∧
    ((read_bms_data o).2 = [Req.bms 0x27] ∨
      (read_bms_data o).2 = [Req.bms 0x27, Req.bms 0x00] ∨
      (read_bms_data o).2 = [Req.bms 0x27, Req.bms 0x00, Req.bms 0x2D, Req.bms 0x2E]) ∧
    (∀ (o' : Oracle) (dev : Dev), (∀ r : Req, reqDev r = dev → o r = o' r) →
      readingOf dev o = readingOf dev o') := by
  intro o
  refine ⟨rfl, rfl, ?_, ?_⟩
  · rcases h27 : seriesFrom27 (bms_send o 0x27) with _ | sc
    · left
      simp [read_bms_data, h27]
    · rcases hblk : bms0x00Block (bms_send o 0x00) sc with _ | kvs
      · right; left
        simp [read_bms_data, h27, hblk]
      · right; right
        simp [read_bms_data, h27, hblk]
  · intro o' dev h
    cases dev with
    | mppt =>
      have e1 : o (Req.modbus 0x01 0x304E 1 0x04) = o' (Req.modbus 0x01 0x304E 1 0x04) := h _ rfl
      have e2 : o (Req.modbus 0x01 0x304F 1 0x04) = o' (Req.modbus 0x01 0x304F 1 0x04) := h _ rfl
      have e3 : o (Req.modbus 0x01 0x3045 1 0x04) = o' (Req.modbus 0x01 0x3045 1 0x04) := h _ rfl
      have e4 : o (Req.modbus 0x01 0x3046 1 0x04) = o' (Req.modbus 0x01 0x3046 1 0x04) := h _ rfl
      have e5 : o (Req.modbus 0x01 0x3047 1 0x04) = o' (Req.modbus 0x01 0x3047 1 0x04) := h _ rfl
      simp only [readingOf, read_mppt_data, read_registers, e1, e2, e3, e4, e5]
    | env =>
      have e1 : o (Req.modbus 0x7B 0x0008 2 0x03) = o' (Req.modbus 0x7B 0x0008 2 0x03) := h _ rfl
      have e2 : o (Req.modbus 0x7B 0x000E 2 0x03) = o' (Req.modbus 0x7B 0x000E 2 0x03) := h _ rfl
      have e3 : o (Req.modbus 0x7B 0x0010 2 0x03) = o' (Req.modbus 0x7B 0x0010 2 0x03) := h _ rfl
      simp only [readingOf, read_env_data, read_registers, e1, e2, e3]
    | ldr =>
      have e1 : o (Req.modbus 0x04 0x0000 2 0x03) = o' (Req.modbus 0x04 0x0000 2 0x03) := h _ rfl
      simp only [readingOf, read_ldr_data, read_registers, e1]
    | pir =>
      have e1 : o (Req.modbus 0x02 0x0000 1 0x03) = o' (Req.modbus 0x02 0x0000 1 0x03) := h _ rfl
      simp only [readingOf, read_pir_data, read_registers, e1]
    | bms =>
      have eb : ∀ cmd : Nat, o (Req.bms cmd) = o' (Req.bms cmd) := fun cmd => h _ rfl
      simp only [readingOf, read_bms_data, bms_send, eb]
    | other => rfl

/-- C9 counterexample: when the 0x27 exchange returns a checksum-valid
    7-byte frame, the `d[-1]` access raises and the whole BMS read aborts:
    the real-time command 0x00 and the MOS commands 0x2D/0x2E are never
    sent, so the claimed fixed BMS command sequence does not hold for every
    combination of outcomes (PIR is still polled afterwards). -/
theorem pollCycle_counterexample :
    (read_bms_data oracleBms27Short).1 = none ∧
    (read_bms_data oracleBms27Short).2 = [Req.bms 0x27] ∧
    (read_all_devices oracleBms27Short).2
      = mpptReqs ++ envReqs ++ ldrReqs ++ [Req.bms 0x27] ++ pirReqs ∧
    ¬(Req.bms 0x00 ∈ (read_all_devices oracleBms27Short).2) ∧
    Req.modbus 0x02 0x0000 1 0x03 ∈ (read_all_devices oracleBms27Short).2 := by
  refine ⟨by decide, by decide, by decide, by decide, by decide⟩

/-- C9 witness: the isolation law applied at two concrete oracles that agree
    on the PIR request but differ on a BMS request: the PIR reading is
    unchanged. -/
theorem pollCycle_witness :
    readingOf Dev.pir (fun _ => ([] : List Nat)) = readingOf Dev.pir oracleBms27Short :=
  (pollCycle (fun _ => ([] : List Nat))).2.2.2 oracleBms27Short Dev.pir (by
    intro r hr
    cases r with
    | modbus s a c f => rfl
    | bms c => simp [reqDev] at hr)

end NuGateway
